import Mathlib

/-!
Shallow embedding of the pdfplucker batch-orchestration layer, translated
from pdfplucker/processor.py, pdfplucker/core.py and pdfplucker/cli.py.

The external environment (psutil memory readings, the LOW_MEMORY variable,
time.time() samples, os.path.getsize results, directory listings, and the
behaviour of the spawned worker processes) is passed to the embedded
functions as explicit parameters.  Machine floats of the source (memory
percentages, file sizes in MB, wall-clock instants, success rates) are
modelled as rationals.  File names are strings; the byte size reported by
os.path.getsize is a natural number, or none when the size query raises.

The chunked dispatch loop of process_batch is embedded with an explicit
fuel argument (the job-list length), so that the recursion is structural
and concrete runs evaluate inside the kernel; with at least one job
consumed per step, fuel equal to the list length is always sufficient.
-/

namespace Pdfplucker

/-- Lower-casing of a file name, as str.lower restricted to ASCII names. -/
def toLowerStr (s : String) : String :=
  ⟨s.data.map Char.toLower⟩

/-- Suffix test on strings, as str.endswith. -/
def endsWithStr (s suff : String) : Bool :=
  s.data.reverse.take suff.data.length == suff.data.reverse

/-- Name part of os.path.splitext and of pathlib stem: everything before
the last dot, where a dot only separates an extension when some character
before it is not a dot (so dotfiles such as .json keep their full name). -/
def stemOf (s : String) : String :=
  let cs := s.data
  let dotIdxs := (List.range cs.length).filter (fun i => cs.getD i ' ' == '.')
  match dotIdxs.getLast? with
  | none => s
  | some i => if (cs.take i).all (fun c => c == '.') then s else ⟨cs.take i⟩

/-- Embeds get_skip_files (processor.py lines 348-358): the stems of the
entries of the output-directory listing that end in .json. -/
def get_skip_files (outputListing : List String) : List String :=
  (outputListing.filter (fun f => endsWithStr f ".json")).map stemOf

/-- One entry of the source-directory listing: its name and the result of
os.path.getsize in bytes (none when the size query raises, in which case
process_batch drops the file). -/
structure FileEntry where
  name : String
  size : Option ℕ
deriving DecidableEq

/-- Per-entry test of the enumeration loop of process_batch (lines
404-416): a .pdf entry (case-insensitive) is kept with its byte size
unless its stem is in the skip set (the skip test is only applied when
the skip set is nonempty, mirroring the truthiness test of line 409) or
its size query raised. -/
def enumEntry (skip_files : List String) (e : FileEntry) : Option (String × ℕ) :=
  if endsWithStr (toLowerStr e.name) ".pdf" then
    if ¬ skip_files.isEmpty ∧ stemOf e.name ∈ skip_files then none
    else match e.size with
      | some sz => some (e.name, sz)
      | none => none
  else none

/-- Embeds the file-list construction of process_batch (lines 399-427):
the kept entries are sorted by ascending byte size with a stable sort; a
non-directory source is the sole job exactly when its name ends in .pdf;
the optional amount argument truncates the result when positive. -/
def enumerate_files (sourceIsDir : Bool) (sourceName : String)
    (listing : List FileEntry) (skip_files : List String)
    (amount : Option ℤ) : List String :=
  let pdf_files :=
    if sourceIsDir then
      let file_info := listing.filterMap (enumEntry skip_files)
      (List.insertionSort (fun a b => a.2 ≤ b.2) file_info).map Prod.fst
    else if endsWithStr (toLowerStr sourceName) ".pdf" then [sourceName] else []
  match amount with
  | some a => if a > 0 then pdf_files.take a.toNat else pdf_files
  | none => pdf_files

/-- Resolution of the skip_files argument of process_batch (lines
394-397): an explicit set is used as given, and otherwise the skip set is
computed once from the output-directory listing. -/
def resolvedSkip (skip0 : Option (List String)) (outputListing : List String) :
    List String :=
  match skip0 with
  | some s => s
  | none => get_skip_files outputListing

/-- Embeds the metrics dict created in process_batch (lines 433-443),
with the fails list keeping (file, error) pairs in append order. -/
structure Metrics where
  initial_time : ℚ
  elapsed_time : ℚ
  total_docs : ℕ
  processed_docs : ℕ
  failed_docs : ℕ
  timeout_docs : ℕ
  success_rate : ℚ
  memory_peak : ℚ
  fails : List (String × String)
deriving DecidableEq

/-- Initial metrics of a batch run (lines 433-443). -/
def initMetrics (startTime : ℚ) (total_docs : ℕ) : Metrics :=
  { initial_time := startTime
    elapsed_time := 0
    total_docs := total_docs
    processed_docs := 0
    failed_docs := 0
    timeout_docs := 0
    success_rate := 0
    memory_peak := 0
    fails := [] }

/-- What future.result() yields for one job in the as_completed loop of
process_batch: the boolean returned by process_with_timeout, a raised
concurrent.futures.TimeoutError, or any other raised exception. -/
inductive FutureOutcome where
  | res (success : Bool)
  | excTimeout
  | excOther (msg : String)
deriving DecidableEq

/-- One harvested completion: the job file, what its future yielded, and
the rss reading in MB sampled right after the metrics update (lines
505-506). -/
structure Completion where
  file : String
  outcome : FutureOutcome
  rss : ℚ
deriving DecidableEq

/-- Embeds one iteration of the as_completed loop of process_batch (lines
474-506): a returned True increments processed_docs; a returned False
increments processed_docs and failed_docs and appends an unknown-error
entry to fails; a TimeoutError increments timeout_docs only; any other
exception increments failed_docs only; afterwards the memory peak is
updated from the sampled rss. -/
def updateMetrics (m : Metrics) (c : Completion) : Metrics :=
  let m1 :=
    match c.outcome with
    | .res true => { m with processed_docs := m.processed_docs + 1 }
    | .res false =>
        { m with processed_docs := m.processed_docs + 1
                 failed_docs := m.failed_docs + 1
                 fails := m.fails ++ [(c.file, "unknown")] }
    | .excTimeout =>
        { m with timeout_docs := m.timeout_docs + 1
                 fails := m.fails ++ [(c.file, "Timeout reached")] }
    | .excOther e =>
        { m with failed_docs := m.failed_docs + 1
                 fails := m.fails ++ [(c.file, e)] }
  { m1 with memory_peak := max m1.memory_peak c.rss }

/-- Metrics after a sequence of completions has been recorded. -/
def metricsAfter (m : Metrics) (cs : List Completion) : Metrics :=
  cs.foldl updateMetrics m

/-- Number of completions whose future returned True. -/
def succCount (cs : List Completion) : ℕ :=
  (cs.filter (fun c => c.outcome == FutureOutcome.res true)).length

/-- Number of completions whose future returned False. -/
def failCount (cs : List Completion) : ℕ :=
  (cs.filter (fun c => c.outcome == FutureOutcome.res false)).length

/-- Intermediate success_rate formula of process_batch (line 515): the
denominator is processed_docs, guarded at zero. -/
def intermediateRate (m : Metrics) : ℚ :=
  if m.processed_docs > 0 then
    (((m.processed_docs : ℚ) - m.failed_docs - m.timeout_docs) / m.processed_docs) * 100
  else 0

/-- Final success_rate formula of process_batch (line 528): the numerator
starts from total_docs and the denominator is total_docs, guarded at
zero. -/
def finalRate (m : Metrics) : ℚ :=
  if m.total_docs > 0 then
    (((m.total_docs : ℚ) - m.failed_docs - m.timeout_docs) / m.total_docs) * 100
  else 0

/-- Modelled from the spec for comparison with the code (claim C4): the
success-rate formula as the specification words it, namely
(processed_docs - failed_docs - timeout_docs) / total_docs * 100 with the
zero-total case guarded. -/
def specSuccessRate (m : Metrics) : ℚ :=
  if m.total_docs > 0 then
    (((m.processed_docs : ℚ) - m.failed_docs - m.timeout_docs) / m.total_docs) * 100
  else 0

/-- Environment samples consumed by one process_batch run. -/
structure BatchEnv where
  lowMemoryEnv : Bool
  memoryPercent : ℚ
  availableGB : ℚ
  startTime : ℚ
  checkpointTimes : List ℚ
  endTime : ℚ

/-- Low-memory mode as computed at the top of process_batch (lines
364-368): the LOW_MEMORY variable, or memory use above 80 percent, or
less than 4 GB available. -/
def low_memory_mode (env : BatchEnv) : Bool :=
  env.lowMemoryEnv || decide (env.memoryPercent > 80) || decide (env.availableGB < 4)

/-- Embeds the worker-count adjustment of process_batch (lines 373-379):
below 8 GB available the count is clamped to the integer part of the
available gigabytes (but kept at least 1); otherwise in low-memory mode a
request above 2 is halved (kept at least 1); otherwise it is unchanged. -/
def effectiveWorkers (max_workers : ℕ) (env : BatchEnv) : ℕ :=
  if env.availableGB < 8 then
    max 1 (min max_workers (⌊env.availableGB⌋.toNat))
  else if low_memory_mode env ∧ max_workers > 2 then
    max 1 (max_workers / 2)
  else max_workers

/-- True exactly when the worker-adjustment code logs a warning (lines
376 and 379). -/
def workerDiagnostic (max_workers : ℕ) (env : BatchEnv) : Bool :=
  if env.availableGB < 8 then true
  else if low_memory_mode env ∧ max_workers > 2 then true
  else false

/-- Modelled from the spec for comparison with the code (claim C8): the
effective worker count as the specification words it, namely
min(requestedWorkers, availableMemoryBudget, cpuBudget). -/
def specEffectiveWorkers (requested memBudget cpuBudget : ℕ) : ℕ :=
  min requested (min memBudget cpuBudget)

/-- Pipeline configuration baked into a constructed DocumentConverter by
create_converter (processor.py lines 92-124). -/
structure Converter where
  images_scale : ℚ
  page_size_limit : Option ℕ
  num_threads : ℕ
  device_type : String
  force_full_page_ocr : Bool
  ocr_lang : List String
deriving DecidableEq

/-- Device resolution of create_converter (line 114). -/
def resolveDevice (device : String) : String :=
  if device.toUpper = "CUDA" then "CUDA"
  else if device.toUpper = "CPU" then "CPU"
  else "AUTO"

/-- The converter create_converter builds on a cache miss, as a function
of its arguments and of the low-memory flag sampled at construction time
(lines 92-124): images are scaled to 0.3 instead of 0.5 under low memory,
a page-size limit is set, and a thread request above 2 is halved but kept
at least 2. -/
def buildConverter (device : String) (num_threads : ℕ) (ocr_lang : List String)
    (force_ocr : Bool) (low_mem : Bool) : Converter :=
  { images_scale := if low_mem then 3 / 10 else 1 / 2
    page_size_limit := if low_mem then some 5000 else none
    num_threads := if low_mem ∧ num_threads > 2 then max 2 (num_threads / 2) else num_threads
    device_type := resolveDevice device
    force_full_page_ocr := force_ocr
    ocr_lang := ocr_lang }

/-- Python rendering of a boolean inside an f-string. -/
def boolStr (b : Bool) : String := if b then "True" else "False"

/-- Underscore join of the OCR language list, as in the cache key. -/
def joinUnderscore : List String → String
  | [] => ""
  | [s] => s
  | s :: rest => s ++ "_" ++ joinUnderscore rest

/-- Cache key of create_converter (line 88), built from the raw arguments
before any low-memory downgrade is applied. -/
def cache_key (device : String) (num_threads : ℕ) (ocr_lang : List String)
    (force_ocr : Bool) : String :=
  device ++ "_" ++ toString num_threads ++ "_" ++ joinUnderscore ocr_lang
    ++ "_" ++ boolStr force_ocr

/-- Embeds create_converter (lines 77-127).  Low-memory mode is the
LOW_MEMORY variable or a memory reading above 70 percent, sampled on
entry; the cache is consulted with the raw-argument key before anything
is built, and a hit returns the cached converter unchanged; a miss builds
a converter under the current low-memory flag and stores it under the
key.  Returns the converter together with the updated cache. -/
def create_converter (cache : List (String × Converter)) (envLow : Bool)
    (memoryPercent : ℚ) (device : String) (num_threads : ℕ)
    (ocr_lang : List String) (force_ocr : Bool) :
    Converter × List (String × Converter) :=
  let low_mem := envLow || decide (memoryPercent > 70)
  let key := cache_key device num_threads ocr_lang force_ocr
  match cache.find? (fun kv => kv.1 == key) with
  | some kv => (kv.2, cache)
  | none =>
      let c := buildConverter device num_threads ocr_lang force_ocr low_mem
      (c, cache ++ [(key, c)])

/-- Timeout adjustment of process_with_timeout (lines 305-310): a file
over 10 MB gets min(timeout * 2, timeout + int(file_size_mb * 6)). -/
def adjustTimeout (timeout : ℕ) (file_size_mb : ℚ) : ℕ :=
  if file_size_mb > 10 then
    min (timeout * 2) (timeout + (⌊file_size_mb * 6⌋).toNat)
  else timeout

/-- What the spawned _worker process did on one job (lines 282-297): it
refused to start under critical memory, ran process_pdf to a boolean
(process_pdf catches its own exceptions and returns False for them), had
an exception escape to the outer handler, or died without reaching
queue.put at all. -/
inductive WorkerEvent where
  | memoryCritical
  | processed (success : Bool)
  | raised (e : String)
  | died
deriving DecidableEq

/-- The one-shot queue message _worker produces for each event (lines
282-297); a worker that died leaves the queue empty. -/
def workerQueueMsg : WorkerEvent → Option (Bool × Option String)
  | .memoryCritical => some (false, some "Insufficient memory")
  | .processed success => some (success, none)
  | .raised e => some (false, some e)
  | .died => none

/-- Run-time behaviour of one isolated worker process: when it terminates
on its own (none meaning it hangs forever), what it did if it finished,
and how long a graceful terminate() takes to bring it down once
requested. -/
structure JobBehavior where
  finishTime : Option ℚ
  event : WorkerEvent
  terminateDelay : ℚ
deriving DecidableEq

/-- Observable outcome of one process_with_timeout call: the boolean it
returns, how long it keeps its pool slot blocked, and whether terminate()
and kill() were invoked on the worker. -/
structure RunnerOutcome where
  result : Bool
  blockedTime : ℚ
  terminated : Bool
  killed : Bool
deriving DecidableEq

/-- Embeds process_with_timeout (lines 299-346): join the worker for the
(possibly size-adjusted) timeout; if it is still alive, terminate it,
join two more seconds and kill it if that grace period passes, returning
False without consulting the queue; a worker that beat the deadline has
its queue drained non-blockingly, an empty queue (the worker died without
reporting) also yielding False. -/
def process_with_timeout (timeout : ℕ) (file_size_mb : ℚ) (b : JobBehavior) :
    RunnerOutcome :=
  let t := adjustTimeout timeout file_size_mb
  match b.finishTime with
  | some ft =>
      if ft ≤ (t : ℚ) then
        match workerQueueMsg b.event with
        | some (success, _) =>
            { result := success, blockedTime := ft, terminated := false, killed := false }
        | none =>
            { result := false, blockedTime := ft, terminated := false, killed := false }
      else
        { result := false, blockedTime := (t : ℚ) + min b.terminateDelay 2
          terminated := true, killed := decide (b.terminateDelay > 2) }
  | none =>
      { result := false, blockedTime := (t : ℚ) + min b.terminateDelay 2
        terminated := true, killed := decide (b.terminateDelay > 2) }

/-- Whether process_with_timeout reaches its timeout path for this job. -/
def timedOut (timeout : ℕ) (file_size_mb : ℚ) (b : JobBehavior) : Bool :=
  match b.finishTime with
  | some ft => decide (ft > (adjustTimeout timeout file_size_mb : ℚ))
  | none => true

/-- The completion event one submitted job delivers to the as_completed
loop: process_with_timeout is a total function to a boolean, so the
future always yields a res outcome built from that boolean. -/
def jobCompletion (timeout : ℕ) (sizeMB : String → ℚ)
    (behaviorOf : String → JobBehavior) (rssOf : String → ℚ)
    (f : String) : Completion :=
  { file := f
    outcome := .res (process_with_timeout timeout (sizeMB f) (behaviorOf f)).result
    rss := rssOf f }

/-- Chunk size of the dispatch loop (line 449): twice the worker count,
at least 1. -/
def batch_size (max_workers : ℕ) : ℕ := max 1 (max_workers * 2)

/-- Fuel-indexed form of the chunked dispatch loop of process_batch
(lines 449-518): fold the next batch_size completions into the metrics,
and when further files remain (the condition i + batch_size <
len(pdf_files) of line 512), snapshot the metrics with the intermediate
success_rate and the next checkpoint clock sample as a write of
intermediate_metrics.json.  Fuel equal to the number of jobs is always
sufficient since every step consumes at least one job. -/
def chunkLoopF : ℕ → ℕ → Metrics → List Completion → List ℚ →
    Metrics × List Metrics
  | 0, _, m, _, _ => (m, [])
  | _ + 1, _, m, [], _ => (m, [])
  | fuel + 1, bs, m, j :: rest0, times =>
      let chunk := (j :: rest0).take bs
      let rest := (j :: rest0).drop bs
      let m1 := chunk.foldl updateMetrics m
      if rest.isEmpty then (m1, [])
      else
        let ckpt := { m1 with
          elapsed_time := times.headD 0 - m.initial_time
          success_rate := intermediateRate m1 }
        let r := chunkLoopF fuel bs m1 rest times.tail
        (r.1, ckpt :: r.2)

/-- The chunked dispatch loop of process_batch, with the fuel
instantiated to the job count. -/
def chunkLoop (bs : ℕ) (m : Metrics) (jobs : List Completion)
    (times : List ℚ) : Metrics × List Metrics :=
  chunkLoopF jobs.length bs m jobs times

/-- Write log of one batch run: the metrics files written, in order. -/
abbrev Writes := List (String × Metrics)

/-- Embeds process_batch (processor.py lines 360-536) as a function of
the environment samples, the requested worker count and timeout, the
source path shape and directory listing, the optional pre-computed skip
set and the output-directory listing, the amount limit, and the per-file
size, worker behaviour and rss samples.  It adjusts the worker count,
resolves the skip set, enumerates the jobs, folds their completions
through the metrics in chunks of batch_size with intermediate
checkpoints, recomputes the final success rate and elapsed time, and
returns the final metrics together with the ordered list of metrics-file
writes, final_metrics.json always being written last (lines 532-534). -/
def process_batch (env : BatchEnv) (max_workers0 : ℕ) (timeout : ℕ)
    (sourceIsDir : Bool) (sourceName : String) (listing : List FileEntry)
    (skip0 : Option (List String)) (outputListing : List String)
    (amount : Option ℤ) (sizeMB : String → ℚ)
    (behaviorOf : String → JobBehavior) (rssOf : String → ℚ) :
    Metrics × Writes :=
  let max_workers := effectiveWorkers max_workers0 env
  let skip_files := resolvedSkip skip0 outputListing
  let pdf_files := enumerate_files sourceIsDir sourceName listing skip_files amount
  let total_docs := pdf_files.length
  let m0 := initMetrics env.startTime total_docs
  let completions := pdf_files.map
    (jobCompletion timeout sizeMB behaviorOf rssOf)
  let r := chunkLoop (batch_size max_workers) m0 completions env.checkpointTimes
  let final := { r.1 with
    elapsed_time := env.endTime - r.1.initial_time
    success_rate := finalRate r.1 }
  (final, r.2.map (fun c => ("intermediate_metrics.json", c))
            ++ [("final_metrics.json", final)])

/-- Setup-level faults of a batch run: the directory creation of lines
386-388, the converter construction of line 391 and the source listing of
line 404 happen before any job is dispatched and raise to the caller. -/
inductive SetupFault where
  | outputNotCreatable (msg : String)
  | converterInitFailed (msg : String)
  | sourceUnreadable (msg : String)
deriving DecidableEq

/-- A process_batch call as seen by its caller: a setup-level fault
raises before any job runs, and otherwise the run reaches the job loop,
whose per-job handling is total, and returns the final metrics. -/
def process_batch_checked (fault : Option SetupFault) (env : BatchEnv)
    (max_workers0 : ℕ) (timeout : ℕ) (sourceIsDir : Bool)
    (sourceName : String) (listing : List FileEntry)
    (skip0 : Option (List String)) (outputListing : List String)
    (amount : Option ℤ) (sizeMB : String → ℚ)
    (behaviorOf : String → JobBehavior) (rssOf : String → ℚ) :
    Except SetupFault (Metrics × Writes) :=
  match fault with
  | some f => .error f
  | none => .ok (process_batch env max_workers0 timeout sourceIsDir sourceName
      listing skip0 outputListing amount sizeMB behaviorOf rssOf)

/-- What a pdfplucker call returns: the bare boolean of a direct
process_pdf call for a single-file source, or the metrics and writes of a
process_batch run for a directory source. -/
inductive PluckResult where
  | single (success : Bool)
  | batch (metrics : Metrics) (writes : Writes)

/-- True when a PluckResult carries batch metrics. -/
def PluckResult.isBatch : PluckResult → Bool
  | .single _ => false
  | .batch _ _ => true

/-- Embeds the dispatch of pdfplucker (core.py lines 85-122): a source
path that is a file is routed to a direct process_pdf call, whose boolean
outcome (an environment effect, since process_pdf runs the converter) is
returned as is; only a non-file source goes to process_batch. -/
def pdfplucker (sourceIsFile : Bool) (singleOutcome : Bool) (env : BatchEnv)
    (workers : ℕ) (timeout : ℕ) (sourceName : String)
    (listing : List FileEntry) (outputListing : List String)
    (amount : Option ℤ) (sizeMB : String → ℚ)
    (behaviorOf : String → JobBehavior) (rssOf : String → ℚ) : PluckResult :=
  if sourceIsFile then .single singleOutcome
  else
    let r := process_batch env workers timeout (¬ sourceIsFile) sourceName
      listing none outputListing amount sizeMB behaviorOf rssOf
    .batch r.1 r.2

/-- Extension test used by the enumeration (line 405). -/
def isPdfEntry (e : FileEntry) : Bool := endsWithStr (toLowerStr e.name) ".pdf"

/-- Environment of the concrete example runs: normal memory, 16 GB
available, one checkpoint clock sample. -/
def cexEnv : BatchEnv :=
  { lowMemoryEnv := false, memoryPercent := 10, availableGB := 16
    startTime := 0, checkpointTimes := [100], endTime := 200 }

/-- Source listing of the concrete example runs: ten PDFs of ascending
byte size. -/
def cexListing10 : List FileEntry :=
  [⟨"f01.pdf", some 1⟩, ⟨"f02.pdf", some 2⟩, ⟨"f03.pdf", some 3⟩,
   ⟨"f04.pdf", some 4⟩, ⟨"f05.pdf", some 5⟩, ⟨"f06.pdf", some 6⟩,
   ⟨"f07.pdf", some 7⟩, ⟨"f08.pdf", some 8⟩, ⟨"f09.pdf", some 9⟩,
   ⟨"f10.pdf", some 10⟩]

/-- Worker behaviour where three of the first eight jobs fail inside the
worker and the rest succeed, every job finishing after one second. -/
def cexBehaviorMixed (f : String) : JobBehavior :=
  if f ∈ ["f06.pdf", "f07.pdf", "f08.pdf"] then ⟨some 1, .processed false, 0⟩
  else ⟨some 1, .processed true, 0⟩

/-- Worker behaviour where every job succeeds after one second. -/
def cexBehaviorOk (_ : String) : JobBehavior := ⟨some 1, .processed true, 0⟩

/-- File sizes of the concrete example runs: one megabyte each. -/
def cexSize (_ : String) : ℚ := 1

/-- Memory samples of the concrete example runs. -/
def cexRss (_ : String) : ℚ := 0

/-- First metrics-file write of the concrete ten-job run with three
worker failures in the first chunk: four requested workers give a chunk
size of eight, so the first write is the checkpoint after eight
completions. -/
def cex4Write : String × Metrics :=
  (process_batch cexEnv 4 600 true "src" cexListing10 (some []) [] none
      cexSize cexBehaviorMixed cexRss).2.headD ("", initMetrics 0 0)

/-- Environment with plenty of memory (32 GB) and no memory pressure,
for the worker-count comparison. -/
def cexEnvBig : BatchEnv :=
  { lowMemoryEnv := false, memoryPercent := 10, availableGB := 32
    startTime := 0, checkpointTimes := [100], endTime := 200 }

/-- Environment whose available memory is 2 GB, the memory-budget
equivalent of a small host. -/
def cexEnv2 : BatchEnv :=
  { lowMemoryEnv := false, memoryPercent := 10, availableGB := 2
    startTime := 0, checkpointTimes := [100], endTime := 200 }

end Pdfplucker

namespace Pdfplucker

/-! Helper lemmas. -/

theorem headD_mem {α : Type _} (l : List α) (d : α) (h : l ≠ []) : l.headD d ∈ l := by
  cases l with
  | nil => exact absurd rfl h
  | cons a t => simp

theorem failCount_le (cs : List Completion) : failCount cs ≤ cs.length :=
  List.length_filter_le _ _

theorem metricsAfter_nil (m : Metrics) : metricsAfter m [] = m := rfl

theorem metricsAfter_cons (m : Metrics) (c : Completion) (cs : List Completion) :
    metricsAfter m (c :: cs) = metricsAfter (updateMetrics m c) cs := rfl

theorem metricsAfter_stable (cs : List Completion) : ∀ m : Metrics,
    (metricsAfter m cs).total_docs = m.total_docs ∧
    (metricsAfter m cs).initial_time = m.initial_time := by
  induction cs with
  | nil => intro m; exact ⟨rfl, rfl⟩
  | cons c cs ih =>
      intro m
      rw [metricsAfter_cons]
      have h := ih (updateMetrics m c)
      have h1 : (updateMetrics m c).total_docs = m.total_docs := by
        rcases c with ⟨f, o, r⟩
        rcases o with b | _ | e
        · cases b <;> rfl
        · rfl
        · rfl
      have h2 : (updateMetrics m c).initial_time = m.initial_time := by
        rcases c with ⟨f, o, r⟩
        rcases o with b | _ | e
        · cases b <;> rfl
        · rfl
        · rfl
      exact ⟨h.1.trans h1, h.2.trans h2⟩

theorem metricsAfter_res_stats (cs : List Completion) : ∀ m : Metrics,
    (∀ c ∈ cs, ∃ b, c.outcome = FutureOutcome.res b) →
    (metricsAfter m cs).processed_docs = m.processed_docs + cs.length ∧
    (metricsAfter m cs).failed_docs = m.failed_docs + failCount cs ∧
    (metricsAfter m cs).timeout_docs = m.timeout_docs ∧
    (metricsAfter m cs).fails.length = m.fails.length + failCount cs := by
  induction cs with
  | nil => intro m _; simp [metricsAfter, failCount]
  | cons c cs ih =>
      intro m h
      obtain ⟨b, hb⟩ := h c (by simp)
      have h2 : ∀ x ∈ cs, ∃ b, x.outcome = FutureOutcome.res b :=
        fun x hx => h x (List.mem_cons_of_mem _ hx)
      have ihm := ih (updateMetrics m c) h2
      rw [metricsAfter_cons]
      rcases c with ⟨f, o, r⟩
      cases hb
      cases b
      · have hu1 : (updateMetrics m ⟨f, FutureOutcome.res false, r⟩).processed_docs
            = m.processed_docs + 1 := rfl
        have hu2 : (updateMetrics m ⟨f, FutureOutcome.res false, r⟩).failed_docs
            = m.failed_docs + 1 := rfl
        have hu3 : (updateMetrics m ⟨f, FutureOutcome.res false, r⟩).timeout_docs
            = m.timeout_docs := rfl
        have hu4 : (updateMetrics m ⟨f, FutureOutcome.res false, r⟩).fails.length
            = m.fails.length + 1 := by
          show (m.fails ++ [(f, "unknown")]).length = m.fails.length + 1
          simp
        have hfc : failCount (⟨f, FutureOutcome.res false, r⟩ :: cs) = failCount cs + 1 := rfl
        refine ⟨?_, ?_, ?_, ?_⟩
        · rw [ihm.1, hu1, List.length_cons]; omega
        · rw [ihm.2.1, hu2, hfc]; omega
        · rw [ihm.2.2.1, hu3]
        · rw [ihm.2.2.2, hu4, hfc]; omega
      · have hu1 : (updateMetrics m ⟨f, FutureOutcome.res true, r⟩).processed_docs
            = m.processed_docs + 1 := rfl
        have hu2 : (updateMetrics m ⟨f, FutureOutcome.res true, r⟩).failed_docs
            = m.failed_docs := rfl
        have hu3 : (updateMetrics m ⟨f, FutureOutcome.res true, r⟩).timeout_docs
            = m.timeout_docs := rfl
        have hu4 : (updateMetrics m ⟨f, FutureOutcome.res true, r⟩).fails.length
            = m.fails.length := rfl
        have hfc : failCount (⟨f, FutureOutcome.res true, r⟩ :: cs) = failCount cs := rfl
        refine ⟨?_, ?_, ?_, ?_⟩
        · rw [ihm.1, hu1, List.length_cons]; omega
        · rw [ihm.2.1, hu2, hfc]
        · rw [ihm.2.2.1, hu3]
        · rw [ihm.2.2.2, hu4, hfc]

theorem succ_add_fail (cs : List Completion)
    (h : ∀ c ∈ cs, ∃ b, c.outcome = FutureOutcome.res b) :
    succCount cs + failCount cs = cs.length := by
  induction cs with
  | nil => simp [succCount, failCount]
  | cons c cs ih =>
      obtain ⟨b, hb⟩ := h c (by simp)
      have h2 : ∀ x ∈ cs, ∃ b, x.outcome = FutureOutcome.res b :=
        fun x hx => h x (List.mem_cons_of_mem _ hx)
      have ihm := ih h2
      rcases c with ⟨f, o, r⟩
      cases hb
      cases b
      · have hs : succCount (⟨f, FutureOutcome.res false, r⟩ :: cs) = succCount cs := rfl
        have hf : failCount (⟨f, FutureOutcome.res false, r⟩ :: cs) = failCount cs + 1 := rfl
        rw [hs, hf, List.length_cons]; omega
      · have hs : succCount (⟨f, FutureOutcome.res true, r⟩ :: cs) = succCount cs + 1 := rfl
        have hf : failCount (⟨f, FutureOutcome.res true, r⟩ :: cs) = failCount cs := rfl
        rw [hs, hf, List.length_cons]; omega

theorem chunkLoopF_fst (fuel : ℕ) :
    ∀ (bs : ℕ) (m : Metrics) (cs : List Completion) (ts : List ℚ),
    0 < bs → cs.length ≤ fuel →
    (chunkLoopF fuel bs m cs ts).1 = metricsAfter m cs := by
  induction fuel with
  | zero =>
      intro bs m cs ts hbs hf
      have hnil : cs = [] := List.length_eq_zero.mp (Nat.le_zero.mp hf)
      subst hnil; rfl
  | succ fuel ih =>
      intro bs m cs ts hbs hf
      match cs with
      | [] => rfl
      | j :: rest0 =>
          by_cases hrest : ((j :: rest0).drop bs).isEmpty
          · have hdrop : (j :: rest0).drop bs = [] := by
              simpa [List.isEmpty_iff] using hrest
            have hlen : (j :: rest0).length ≤ bs := List.drop_eq_nil_iff.mp hdrop
            have htake : (j :: rest0).take bs = j :: rest0 := List.take_of_length_le hlen
            simp only [chunkLoopF, hrest, if_true]
            rw [htake]
            rfl
          · have hlen : bs < (j :: rest0).length := by
              by_contra hc
              push_neg at hc
              have hd : (j :: rest0).drop bs = [] := List.drop_eq_nil_iff.mpr hc
              rw [hd] at hrest
              exact hrest rfl
            have hrec := ih bs (((j :: rest0).take bs).foldl updateMetrics m)
              ((j :: rest0).drop bs) ts.tail hbs
              (by rw [List.length_drop]; omega)
            simp only [chunkLoopF, hrest, if_false]
            rw [hrec]
            show metricsAfter (metricsAfter m ((j :: rest0).take bs)) ((j :: rest0).drop bs)
              = metricsAfter m (j :: rest0)
            rw [metricsAfter, metricsAfter, metricsAfter, ← List.foldl_append,
              List.take_append_drop]

theorem chunkLoopF_ckpts (fuel : ℕ) :
    ∀ (bs : ℕ) (m : Metrics) (cs : List Completion) (ts : List ℚ),
    0 < bs → cs.length ≤ fuel →
    (∀ c ∈ cs, ∃ b, c.outcome = FutureOutcome.res b) →
    m.failed_docs + m.timeout_docs ≤ m.processed_docs →
    ∀ ck ∈ (chunkLoopF fuel bs m cs ts).2,
      ck.success_rate = intermediateRate ck ∧
      ck.failed_docs + ck.timeout_docs ≤ ck.processed_docs ∧
      (∃ j, 0 < j ∧ ck.processed_docs = m.processed_docs + j * bs) ∧
      ck.total_docs = m.total_docs := by
  induction fuel with
  | zero =>
      intro bs m cs ts hbs hf hres hcons ck hck
      have hnil : cs = [] := List.length_eq_zero.mp (Nat.le_zero.mp hf)
      subst hnil
      simp [chunkLoopF] at hck
  | succ fuel ih =>
      intro bs m cs ts hbs hf hres hcons ck hck
      match cs with
      | [] => simp [chunkLoopF] at hck
      | j :: rest0 =>
          by_cases hrest : ((j :: rest0).drop bs).isEmpty
          · simp only [chunkLoopF, hrest, if_true] at hck
            simp at hck
          · have hlen : bs < (j :: rest0).length := by
              by_contra hc
              push_neg at hc
              have hd : (j :: rest0).drop bs = [] := List.drop_eq_nil_iff.mpr hc
              rw [hd] at hrest
              exact hrest rfl
            have hchunklen : ((j :: rest0).take bs).length = bs := by
              rw [List.length_take]; omega
            have hreschunk : ∀ c ∈ (j :: rest0).take bs, ∃ b, c.outcome = FutureOutcome.res b :=
              fun c hc => hres c (List.mem_of_mem_take hc)
            have hresrest : ∀ c ∈ (j :: rest0).drop bs, ∃ b, c.outcome = FutureOutcome.res b :=
              fun c hc => hres c (List.mem_of_mem_drop hc)
            have hstats := metricsAfter_res_stats ((j :: rest0).take bs) m hreschunk
            have hstable := metricsAfter_stable ((j :: rest0).take bs) m
            set m1 := metricsAfter m ((j :: rest0).take bs) with hm1
            have hm1p : m1.processed_docs = m.processed_docs + bs := by
              rw [hstats.1, hchunklen]
            have hm1cons : m1.failed_docs + m1.timeout_docs ≤ m1.processed_docs := by
              have hfcle : failCount ((j :: rest0).take bs) ≤ bs := by
                have := failCount_le ((j :: rest0).take bs)
                omega
              rw [hstats.2.1, hstats.2.2.1, hm1p]
              omega
            simp only [chunkLoopF, hrest, if_false] at hck
            rcases List.mem_cons.mp hck with hckfst | hcktail
            · subst hckfst
              refine ⟨?_, ?_, ?_, ?_⟩
              · rfl
              · exact hm1cons
              · exact ⟨1, Nat.one_pos, by simpa using hm1p⟩
              · exact hstable.1
            · have hihm := ih bs m1 ((j :: rest0).drop bs) ts.tail hbs
                (by rw [List.length_drop]; omega) hresrest hm1cons ck hcktail
              refine ⟨hihm.1, hihm.2.1, ?_, hihm.2.2.2.trans hstable.1⟩
              obtain ⟨jj, hjj, hp⟩ := hihm.2.2.1
              exact ⟨jj + 1, by omega, by rw [hp, hm1p]; ring⟩

theorem intermediateRate_bounds (m : Metrics)
    (h : m.failed_docs + m.timeout_docs ≤ m.processed_docs) :
    0 ≤ intermediateRate m ∧ intermediateRate m ≤ 100 := by
  rw [intermediateRate]
  by_cases hp : m.processed_docs > 0
  · rw [if_pos hp]
    have hq : (0 : ℚ) < (m.processed_docs : ℚ) := by exact_mod_cast hp
    have hnum0 : (0 : ℚ) ≤ (m.processed_docs : ℚ) - m.failed_docs - m.timeout_docs := by
      have : (m.failed_docs : ℚ) + m.timeout_docs ≤ m.processed_docs := by exact_mod_cast h
      linarith
    have hnum1 : (m.processed_docs : ℚ) - m.failed_docs - m.timeout_docs
        ≤ (m.processed_docs : ℚ) := by
      have h0 : (0 : ℚ) ≤ (m.failed_docs : ℚ) := by positivity
      have h1 : (0 : ℚ) ≤ (m.timeout_docs : ℚ) := by positivity
      linarith
    constructor
    · positivity
    · rw [div_mul_eq_mul_div, div_le_iff₀ hq]
      nlinarith
  · rw [if_neg hp]
    norm_num

theorem finalRate_bounds (m : Metrics)
    (h : m.failed_docs + m.timeout_docs ≤ m.total_docs) :
    0 ≤ finalRate m ∧ finalRate m ≤ 100 := by
  rw [finalRate]
  by_cases hp : m.total_docs > 0
  · rw [if_pos hp]
    have hq : (0 : ℚ) < (m.total_docs : ℚ) := by exact_mod_cast hp
    have hnum0 : (0 : ℚ) ≤ (m.total_docs : ℚ) - m.failed_docs - m.timeout_docs := by
      have : (m.failed_docs : ℚ) + m.timeout_docs ≤ m.total_docs := by exact_mod_cast h
      linarith
    have hnum1 : (m.total_docs : ℚ) - m.failed_docs - m.timeout_docs ≤ (m.total_docs : ℚ) := by
      have h0 : (0 : ℚ) ≤ (m.failed_docs : ℚ) := by positivity
      have h1 : (0 : ℚ) ≤ (m.timeout_docs : ℚ) := by positivity
      linarith
    constructor
    · positivity
    · rw [div_mul_eq_mul_div, div_le_iff₀ hq]
      nlinarith
  · rw [if_neg hp]
    norm_num

theorem finalRate_of_total_zero (m : Metrics) (h : m.total_docs = 0) : finalRate m = 0 := by
  rw [finalRate, if_neg (by omega)]

theorem batch_size_pos (w : ℕ) : 0 < batch_size w :=
  Nat.lt_of_lt_of_le Nat.one_pos (le_max_left 1 (w * 2))

theorem jobCompletion_res (t : ℕ) (szb : String → ℚ) (bh : String → JobBehavior)
    (rs : String → ℚ) (files : List String) :
    ∀ c ∈ files.map (jobCompletion t szb bh rs), ∃ b, c.outcome = FutureOutcome.res b := by
  intro c hc
  obtain ⟨f, _, rfl⟩ := List.mem_map.mp hc
  exact ⟨_, rfl⟩

theorem process_batch_final_stats (env : BatchEnv) (w t : ℕ) (dir : Bool)
    (name : String) (listing : List FileEntry) (skip0 : Option (List String))
    (out : List String) (amount : Option ℤ) (szb : String → ℚ)
    (bh : String → JobBehavior) (rs : String → ℚ) :
    (process_batch env w t dir name listing skip0 out amount szb bh rs).1.processed_docs
      = (enumerate_files dir name listing (resolvedSkip skip0 out) amount).length ∧
    (process_batch env w t dir name listing skip0 out amount szb bh rs).1.failed_docs
      = failCount ((enumerate_files dir name listing (resolvedSkip skip0 out) amount).map
          (jobCompletion t szb bh rs)) ∧
    (process_batch env w t dir name listing skip0 out amount szb bh rs).1.timeout_docs = 0 ∧
    (process_batch env w t dir name listing skip0 out amount szb bh rs).1.total_docs
      = (enumerate_files dir name listing (resolvedSkip skip0 out) amount).length ∧
    (process_batch env w t dir name listing skip0 out amount szb bh rs).1.fails.length
      = failCount ((enumerate_files dir name listing (resolvedSkip skip0 out) amount).map
          (jobCompletion t szb bh rs)) := by
  set files := enumerate_files dir name listing (resolvedSkip skip0 out) amount with hfiles
  set cs := files.map (jobCompletion t szb bh rs) with hcs
  set m0 := initMetrics env.startTime files.length with hm0
  have hres : ∀ c ∈ cs, ∃ b, c.outcome = FutureOutcome.res b :=
    jobCompletion_res t szb bh rs files
  have hloop : (chunkLoopF cs.length (batch_size (effectiveWorkers w env)) m0 cs
      env.checkpointTimes).1 = metricsAfter m0 cs :=
    chunkLoopF_fst cs.length (batch_size (effectiveWorkers w env)) m0 cs
      env.checkpointTimes (batch_size_pos _) le_rfl
  have hstats := metricsAfter_res_stats cs m0 hres
  have hstable := metricsAfter_stable cs m0
  have hm0p : m0.processed_docs = 0 := rfl
  have hm0f : m0.failed_docs = 0 := rfl
  have hm0t : m0.timeout_docs = 0 := rfl
  have hm0tot : m0.total_docs = files.length := rfl
  have hm0fl : m0.fails.length = 0 := rfl
  have hcl : cs.length = files.length := by rw [hcs, List.length_map]
  refine ⟨?_, ?_, ?_, ?_, ?_⟩
  · show (chunkLoopF cs.length (batch_size (effectiveWorkers w env)) m0 cs
        env.checkpointTimes).1.processed_docs = files.length
    rw [hloop, hstats.1, hm0p, hcl]
    omega
  · show (chunkLoopF cs.length (batch_size (effectiveWorkers w env)) m0 cs
        env.checkpointTimes).1.failed_docs = failCount cs
    rw [hloop, hstats.2.1, hm0f]
    omega
  · show (chunkLoopF cs.length (batch_size (effectiveWorkers w env)) m0 cs
        env.checkpointTimes).1.timeout_docs = 0
    rw [hloop, hstats.2.2.1, hm0t]
  · show (chunkLoopF cs.length (batch_size (effectiveWorkers w env)) m0 cs
        env.checkpointTimes).1.total_docs = files.length
    rw [hloop, hstable.1, hm0tot]
  · show (chunkLoopF cs.length (batch_size (effectiveWorkers w env)) m0 cs
        env.checkpointTimes).1.fails.length = failCount cs
    rw [hloop, hstats.2.2.2, hm0fl]
    omega

/-- C1: for every batch run over the N enumerated jobs, after every
metrics update (that is, after recording any initial segment of the
completion sequence) the counters satisfy processed_docs = succeeded +
failed_docs + timeout_docs, where succeeded is the number of jobs whose
runner returned True; and in the final RunMetrics, processed_docs equals
N, whatever mix of success, failure and timeout behaviours the jobs
exhibit (process_with_timeout converts every timeout into a False
result, so each completion lands in one of the two counted branches). -/
theorem C1_processed_partition (env : BatchEnv) (w t : ℕ) (dir : Bool)
    (name : String) (listing : List FileEntry) (skip0 : Option (List String))
    (out : List String) (amount : Option ℤ) (szb : String → ℚ)
    (bh : String → JobBehavior) (rs : String → ℚ) (k : ℕ) :
    (let cs := (((enumerate_files dir name listing (resolvedSkip skip0 out) amount).map
        (jobCompletion t szb bh rs)).take k)
     let m := metricsAfter (initMetrics env.startTime
        (enumerate_files dir name listing (resolvedSkip skip0 out) amount).length) cs
     m.processed_docs = succCount cs + m.failed_docs + m.timeout_docs) ∧
    (process_batch env w t dir name listing skip0 out amount szb bh rs).1.processed_docs
      = (enumerate_files dir name listing (resolvedSkip skip0 out) amount).length := by
  constructor
  · set files := enumerate_files dir name listing (resolvedSkip skip0 out) amount with hfiles
    set cs := (files.map (jobCompletion t szb bh rs)).take k with hcs
    set m0 := initMetrics env.startTime files.length with hm0
    have hres : ∀ c ∈ cs, ∃ b, c.outcome = FutureOutcome.res b := fun c hc =>
      jobCompletion_res t szb bh rs files c (List.mem_of_mem_take hc)
    have hstats := metricsAfter_res_stats cs m0 hres
    have hsf := succ_add_fail cs hres
    have hm0p : m0.processed_docs = 0 := rfl
    have hm0f : m0.failed_docs = 0 := rfl
    have hm0t : m0.timeout_docs = 0 := rfl
    show (metricsAfter m0 cs).processed_docs
      = succCount cs + (metricsAfter m0 cs).failed_docs + (metricsAfter m0 cs).timeout_docs
    rw [hstats.1, hstats.2.1, hstats.2.2.1, hm0p, hm0f, hm0t]
    omega
  · exact (process_batch_final_stats env w t dir name listing skip0 out amount szb bh rs).1

/-- C3: per-job errors (converter exceptions caught inside process_pdf,
worker crashes, a worker dying without reporting a result, timeouts)
never escape the job runner or process_batch as exceptions: the runner is
a total function to a boolean, every completion is folded into the
metrics (processed_docs covers all N jobs and each failing job
contributes exactly one fails entry), final_metrics.json is always the
last write even if every job failed, and the checked entry point returns
an error exactly for a setup-level fault. -/
theorem C3_no_job_error_escapes (fault : Option SetupFault) (env : BatchEnv)
    (w t : ℕ) (dir : Bool) (name : String) (listing : List FileEntry)
    (skip0 : Option (List String)) (out : List String) (amount : Option ℤ)
    (szb : String → ℚ) (bh : String → JobBehavior) (rs : String → ℚ) :
    match process_batch_checked fault env w t dir name listing skip0 out amount
        szb bh rs with
    | .error f => fault = some f
    | .ok r =>
        fault = none ∧
        r.2.getLast?.map Prod.fst = some "final_metrics.json" ∧
        r.1.processed_docs
          = (enumerate_files dir name listing (resolvedSkip skip0 out) amount).length ∧
        r.1.fails.length
          = failCount ((enumerate_files dir name listing (resolvedSkip skip0 out)
              amount).map (jobCompletion t szb bh rs)) := by
  cases fault with
  | some f => simp [process_batch_checked]
  | none =>
      simp only [process_batch_checked]
      have hstats := process_batch_final_stats env w t dir name listing skip0 out amount szb bh rs
      refine ⟨by trivial, ?_, hstats.1, hstats.2.2.2.2⟩
      show (((process_batch env w t dir name listing skip0 out amount szb bh rs).2.getLast?).map
        Prod.fst) = some "final_metrics.json"
      have hlast : (process_batch env w t dir name listing skip0 out amount szb bh rs).2.getLast?
          = some ("final_metrics.json",
            (process_batch env w t dir name listing skip0 out amount szb bh rs).1) := by
        show (List.map _ _ ++ [("final_metrics.json", _)]).getLast? = _
        rw [List.getLast?_concat]
        rfl
      rw [hlast]
      rfl

theorem process_batch_writes (env : BatchEnv) (w t : ℕ) (dir : Bool)
    (name : String) (listing : List FileEntry) (skip0 : Option (List String))
    (out : List String) (amount : Option ℤ) (szb : String → ℚ)
    (bh : String → JobBehavior) (rs : String → ℚ) :
    ∀ x ∈ (process_batch env w t dir name listing skip0 out amount szb bh rs).2,
      (x.1 = "final_metrics.json"
        ∧ x.2 = (process_batch env w t dir name listing skip0 out amount szb bh rs).1) ∨
      (x.1 = "intermediate_metrics.json"
        ∧ x.2.success_rate = intermediateRate x.2
        ∧ x.2.failed_docs + x.2.timeout_docs ≤ x.2.processed_docs
        ∧ ∃ j, 0 < j ∧ x.2.processed_docs = j * batch_size (effectiveWorkers w env)) := by
  intro x hx
  set files := enumerate_files dir name listing (resolvedSkip skip0 out) amount with hfiles
  set cs := files.map (jobCompletion t szb bh rs) with hcs
  set m0 := initMetrics env.startTime files.length with hm0
  rcases List.mem_append.mp hx with h | h
  · obtain ⟨ck, hck, rfl⟩ := List.mem_map.mp h
    right
    have hres : ∀ c ∈ cs, ∃ b, c.outcome = FutureOutcome.res b :=
      jobCompletion_res t szb bh rs files
    have hcons : m0.failed_docs + m0.timeout_docs ≤ m0.processed_docs := Nat.le_refl 0
    have hcpt := chunkLoopF_ckpts cs.length (batch_size (effectiveWorkers w env)) m0 cs
      env.checkpointTimes (batch_size_pos _) le_rfl hres hcons ck hck
    refine ⟨rfl, hcpt.1, hcpt.2.1, ?_⟩
    obtain ⟨j, hj, hp⟩ := hcpt.2.2.1
    have hm0p : m0.processed_docs = 0 := rfl
    exact ⟨j, hj, by rw [hp, hm0p, Nat.zero_add]⟩
  · left
    have hx1 : x = ("final_metrics.json",
        (process_batch env w t dir name listing skip0 out amount szb bh rs).1) := by
      simpa using h
    rw [hx1]
    exact ⟨rfl, rfl⟩

/-- C4 (amended): each intermediate checkpoint stores success_rate
recomputed as (processed_docs - failed_docs - timeout_docs) /
processed_docs * 100 (denominator processed_docs, not total_docs),
guarded at zero; finalization stores success_rate recomputed as
(total_docs - failed_docs - timeout_docs) / total_docs * 100, guarded so
it is 0 (not NaN or an error) when total_docs = 0; and since every
completion of a run carries a runner boolean, all stored rates lie in
[0, 100]. -/
theorem C4_success_rate_amended (env : BatchEnv) (w t : ℕ) (dir : Bool)
    (name : String) (listing : List FileEntry) (skip0 : Option (List String))
    (out : List String) (amount : Option ℤ) (szb : String → ℚ)
    (bh : String → JobBehavior) (rs : String → ℚ) :
    ((process_batch env w t dir name listing skip0 out amount szb bh rs).1.success_rate
      = finalRate (process_batch env w t dir name listing skip0 out amount szb bh rs).1) ∧
    (0 ≤ (process_batch env w t dir name listing skip0 out amount szb bh rs).1.success_rate
      ∧ (process_batch env w t dir name listing skip0 out amount szb bh rs).1.success_rate
          ≤ 100) ∧
    ((process_batch env w t dir name listing skip0 out amount szb bh rs).1.total_docs = 0 →
      (process_batch env w t dir name listing skip0 out amount szb bh rs).1.success_rate = 0) ∧
    (∀ x ∈ (process_batch env w t dir name listing skip0 out amount szb bh rs).2,
      x.1 = "intermediate_metrics.json" →
        x.2.success_rate = intermediateRate x.2
          ∧ 0 ≤ x.2.success_rate ∧ x.2.success_rate ≤ 100) := by
  have hstats := process_batch_final_stats env w t dir name listing skip0 out amount szb bh rs
  have hrfl : (process_batch env w t dir name listing skip0 out amount szb bh rs).1.success_rate
      = finalRate (process_batch env w t dir name listing skip0 out amount szb bh rs).1 := rfl
  have hcons : (process_batch env w t dir name listing skip0 out amount szb bh
        rs).1.failed_docs
        + (process_batch env w t dir name listing skip0 out amount szb bh rs).1.timeout_docs
      ≤ (process_batch env w t dir name listing skip0 out amount szb bh rs).1.total_docs := by
    rw [hstats.2.1, hstats.2.2.1, hstats.2.2.2.1]
    have h1 := failCount_le ((enumerate_files dir name listing (resolvedSkip skip0 out)
      amount).map (jobCompletion t szb bh rs))
    rw [List.length_map] at h1
    omega
  have hbounds := finalRate_bounds _ hcons
  refine ⟨hrfl, ⟨hrfl ▸ hbounds.1, hrfl ▸ hbounds.2⟩, ?_, ?_⟩
  · intro h0
    rw [hrfl]
    exact finalRate_of_total_zero _ h0
  · intro x hx hname
    rcases process_batch_writes env w t dir name listing skip0 out amount szb bh rs x hx with
      hfin | hint
    · rw [hname] at hfin
      exact absurd hfin.1 (by decide)
    · have hb := intermediateRate_bounds x.2 hint.2.2.1
      exact ⟨hint.2.1, hint.2.1 ▸ hb.1, hint.2.1 ▸ hb.2⟩

/-- C4 (counterexample): in a ten-job run with four requested workers in
which three of the first eight jobs fail, the checkpoint written after
the first chunk holds processed_docs 8, failed_docs 3, timeout_docs 0 and
total_docs 10, and its stored success_rate is (8 - 3) / 8 * 100 = 62.5,
while the claimed formula (processed_docs - failed_docs - timeout_docs) /
total_docs * 100 gives 50, so the claim fails at this input. -/
theorem C4_counterexample :
    cex4Write.1 = "intermediate_metrics.json" ∧
    cex4Write.2.processed_docs = 8 ∧
    cex4Write.2.failed_docs = 3 ∧
    cex4Write.2.timeout_docs = 0 ∧
    cex4Write.2.total_docs = 10 ∧
    cex4Write.2.success_rate = 125 / 2 ∧
    specSuccessRate cex4Write.2 = 50 ∧
    cex4Write.2.success_rate ≠ specSuccessRate cex4Write.2 := by
  have hp : cex4Write.2.processed_docs = 8 := by decide
  have hf : cex4Write.2.failed_docs = 3 := by decide
  have ht : cex4Write.2.timeout_docs = 0 := by decide
  have htot : cex4Write.2.total_docs = 10 := by decide
  have hname : cex4Write.1 = "intermediate_metrics.json" := by decide
  have hne : (process_batch cexEnv 4 600 true "src" cexListing10 (some []) [] none
      cexSize cexBehaviorMixed cexRss).2 ≠ [] := by decide
  have hmem : cex4Write ∈ (process_batch cexEnv 4 600 true "src" cexListing10 (some []) []
      none cexSize cexBehaviorMixed cexRss).2 := headD_mem _ _ hne
  have hrate : cex4Write.2.success_rate = intermediateRate cex4Write.2 := by
    rcases process_batch_writes cexEnv 4 600 true "src" cexListing10 (some []) [] none
        cexSize cexBehaviorMixed cexRss cex4Write hmem with hfin | hint
    · rw [hname] at hfin
      exact absurd hfin.1 (by decide)
    · exact hint.2.1
  have hir : intermediateRate cex4Write.2 = 125 / 2 := by
    rw [intermediateRate, hp, hf, ht]
    norm_num
  have hsr : specSuccessRate cex4Write.2 = 50 := by
    rw [specSuccessRate, hp, hf, ht, htot]
    norm_num
  refine ⟨hname, hp, hf, ht, htot, hrate.trans hir, hsr, ?_⟩
  rw [hrate.trans hir, hsr]
  norm_num

/-- C7 (amended): metrics snapshots are persisted per chunk, not every 5
completions: each write is either an intermediate checkpoint or the final
file, every intermediate checkpoint holds a processed_docs count that is
a positive multiple of the chunk size batch_size = max(1, 2 *
effective workers) (a checkpoint is only written when another chunk
remains), and the final metrics file is unconditionally the last write of
the batch. -/
theorem C7_checkpoints_amended (env : BatchEnv) (w t : ℕ) (dir : Bool)
    (name : String) (listing : List FileEntry) (skip0 : Option (List String))
    (out : List String) (amount : Option ℤ) (szb : String → ℚ)
    (bh : String → JobBehavior) (rs : String → ℚ) :
    (∀ x ∈ (process_batch env w t dir name listing skip0 out amount szb bh rs).2,
      x.1 = "intermediate_metrics.json" ∨ x.1 = "final_metrics.json") ∧
    ((process_batch env w t dir name listing skip0 out amount szb bh
        rs).2.getLast?.map Prod.fst = some "final_metrics.json") ∧
    (∀ x ∈ (process_batch env w t dir name listing skip0 out amount szb bh rs).2,
      x.1 = "intermediate_metrics.json" →
        ∃ j, 0 < j ∧ x.2.processed_docs = j * batch_size (effectiveWorkers w env)) := by
  refine ⟨?_, ?_, ?_⟩
  · intro x hx
    rcases process_batch_writes env w t dir name listing skip0 out amount szb bh rs x hx with
      hfin | hint
    · exact Or.inr hfin.1
    · exact Or.inl hint.1
  · have hlast : (process_batch env w t dir name listing skip0 out amount szb bh rs).2.getLast?
        = some ("final_metrics.json",
          (process_batch env w t dir name listing skip0 out amount szb bh rs).1) := by
      show (List.map _ _ ++ [("final_metrics.json", _)]).getLast? = _
      rw [List.getLast?_concat]
      rfl
    rw [hlast]
    rfl
  · intro x hx hname
    rcases process_batch_writes env w t dir name listing skip0 out amount szb bh rs x hx with
      hfin | hint
    · rw [hname] at hfin
      exact absurd hfin.1 (by decide)
    · exact hint.2.2.2

/-- C7 (counterexample): in a batch of ten jobs with the default four
workers in which every job succeeds, the only intermediate checkpoint is
written after the eighth completion (chunk size 2 * 4 = 8) and holds
processed_docs 8; no write of the run holds processed_docs 5, so no
snapshot is persisted after the 5th completion. -/
theorem C7_counterexample :
    (((process_batch cexEnv 4 600 true "src" cexListing10 (some []) [] none
        cexSize cexBehaviorOk cexRss).2.filter
          (fun x => x.1 == "intermediate_metrics.json")).map
      (fun x => x.2.processed_docs)) = [8] ∧
    5 ∉ ((process_batch cexEnv 4 600 true "src" cexListing10 (some []) [] none
        cexSize cexBehaviorOk cexRss).2.map (fun x => x.2.processed_docs)) := by
  decide

/-- C2 (amended): a job whose isolated worker has not completed within
the effective timeout is forcibly reclaimed: process_with_timeout calls
terminate(), escalates to kill() exactly when the graceful termination
takes more than the 2 second grace join, blocks its pool slot for at most
the effective timeout plus 2 seconds (the effective timeout equals the
configured one for files of at most 10 MB and is enlarged to at most
min(2 * timeout, timeout + 6 * sizeMB) for larger files), and returns
False; the batch loop then records the job in failed_docs, leaving
timeout_docs unchanged. -/
theorem C2_timeout_amended (timeout : ℕ) (size : ℚ) (b : JobBehavior) (m : Metrics)
    (f : String) (rss : ℚ) (h : timedOut timeout size b = true) :
    (process_with_timeout timeout size b).result = false ∧
    (process_with_timeout timeout size b).terminated = true ∧
    ((process_with_timeout timeout size b).killed = true ↔ 2 < b.terminateDelay) ∧
    (process_with_timeout timeout size b).blockedTime
      ≤ (adjustTimeout timeout size : ℚ) + 2 ∧
    (size ≤ 10 → (process_with_timeout timeout size b).blockedTime ≤ (timeout : ℚ) + 2) ∧
    (updateMetrics m ⟨f, .res (process_with_timeout timeout size b).result, rss⟩).failed_docs
      = m.failed_docs + 1 ∧
    (updateMetrics m ⟨f, .res (process_with_timeout timeout size b).result, rss⟩).timeout_docs
      = m.timeout_docs := by
  have hout : process_with_timeout timeout size b =
      { result := false
        blockedTime := (adjustTimeout timeout size : ℚ) + min b.terminateDelay 2
        terminated := true
        killed := decide (b.terminateDelay > 2) } := by
    rcases hb : b.finishTime with _ | ft
    · simp only [process_with_timeout, hb]
    · simp only [timedOut, hb, decide_eq_true_eq] at h
      simp only [process_with_timeout, hb]
      rw [if_neg (not_le.mpr h)]
  rw [hout]
  have hadj : (size ≤ 10) → adjustTimeout timeout size = timeout := by
    intro hs
    rw [adjustTimeout, if_neg (not_lt.mpr hs)]
  refine ⟨rfl, rfl, by simp, ?_, ?_, rfl, rfl⟩
  · exact add_le_add_left (min_le_right _ _) _
  · intro hs
    rw [hadj hs]
    exact add_le_add_left (min_le_right _ _) _

/-- C2 (witness): a worker that hangs forever on a 5 MB file with a 600
second timeout is terminated, returns False and blocks at most 602
seconds. -/
theorem C2_timeout_amended_witness :
    (process_with_timeout 600 5 ⟨none, WorkerEvent.processed true, 5⟩).result = false ∧
    (process_with_timeout 600 5 ⟨none, WorkerEvent.processed true, 5⟩).terminated = true ∧
    (process_with_timeout 600 5 ⟨none, WorkerEvent.processed true, 5⟩).blockedTime
      ≤ (600 : ℚ) + 2 := by
  have h := C2_timeout_amended 600 5 ⟨none, WorkerEvent.processed true, 5⟩
    (initMetrics 0 1) "doc.pdf" 0 (by decide)
  exact ⟨h.1, h.2.1, h.2.2.2.2.1 (by norm_num)⟩

/-- C2 (counterexample): a worker that hangs forever yields the runner
result False, and the metrics update for that job increments failed_docs
and leaves timeout_docs at zero, contradicting the claim that the
recorded outcome increments timeout_docs and not failed_docs. -/
theorem C2_counterexample :
    timedOut 600 5 ⟨none, WorkerEvent.processed true, 5⟩ = true ∧
    (process_with_timeout 600 5 ⟨none, WorkerEvent.processed true, 5⟩).result = false ∧
    (process_with_timeout 600 5 ⟨none, WorkerEvent.processed true, 5⟩).killed = true ∧
    (updateMetrics (initMetrics 0 1) ⟨"doc.pdf",
      .res (process_with_timeout 600 5 ⟨none, WorkerEvent.processed true, 5⟩).result,
      0⟩).failed_docs = 1 ∧
    (updateMetrics (initMetrics 0 1) ⟨"doc.pdf",
      .res (process_with_timeout 600 5 ⟨none, WorkerEvent.processed true, 5⟩).result,
      0⟩).timeout_docs = 0 ∧
    (updateMetrics (initMetrics 0 1) ⟨"doc.pdf",
      .res (process_with_timeout 600 5 ⟨none, WorkerEvent.processed true, 5⟩).result,
      0⟩).processed_docs = 1 := by
  decide

theorem enumEntry_length (skip : List String) (listing : List FileEntry)
    (h : ∀ e ∈ listing, isPdfEntry e = true → e.size.isSome) :
    (listing.filterMap (enumEntry skip)).length
      + (listing.filter (fun e => isPdfEntry e
          && decide (stemOf e.name ∈ skip))).length
      = (listing.filter isPdfEntry).length := by
  induction listing with
  | nil => rfl
  | cons e l ih =>
      have he := h e (by simp)
      have hl : ∀ x ∈ l, isPdfEntry x = true → x.size.isSome :=
        fun x hx => h x (List.mem_cons_of_mem _ hx)
      have ihl := ih hl
      by_cases hpdf : isPdfEntry e = true
      · have hpdf2 : endsWithStr (toLowerStr e.name) ".pdf" = true := hpdf
        by_cases hskip : stemOf e.name ∈ skip
        · have hne : ¬ skip.isEmpty = true := by
            cases skip with
            | nil => simp at hskip
            | cons a tl => simp
          have hentry : enumEntry skip e = none := by
            rw [enumEntry, if_pos hpdf2, if_pos ⟨hne, hskip⟩]
          rw [List.filterMap_cons_none hentry]
          rw [List.filter_cons, List.filter_cons, if_pos (by simp [hpdf, hskip]),
            if_pos hpdf, List.length_cons, List.length_cons]
          omega
        · obtain ⟨sz, hsz⟩ := Option.isSome_iff_exists.mp (he hpdf)
          have hentry : enumEntry skip e = some (e.name, sz) := by
            rw [enumEntry, if_pos hpdf2, if_neg (by simp [hskip]), hsz]
          rw [List.filterMap_cons_some hentry]
          rw [List.filter_cons, List.filter_cons, if_neg (by simp [hskip]),
            if_pos hpdf, List.length_cons, List.length_cons]
          omega
      · have hpdf2 : ¬ endsWithStr (toLowerStr e.name) ".pdf" = true := hpdf
        have hentry : enumEntry skip e = none := by
          rw [enumEntry, if_neg hpdf2]
        rw [List.filterMap_cons_none hentry]
        rw [List.filter_cons, List.filter_cons, if_neg (by simp [hpdf]), if_neg hpdf]
        omega

/-- C5: for a source directory whose eligible PDFs all have readable
sizes, re-running the batch against an output directory enumerates
exactly N - M jobs, where N is the number of eligible PDFs and M the
number of those whose output stem is already present in the skip set
computed once from the output-directory listing. -/
theorem C5_resume_skip (src : String) (listing : List FileEntry)
    (outputListing : List String)
    (h : ∀ e ∈ listing, isPdfEntry e = true → e.size.isSome) :
    (enumerate_files true src listing (get_skip_files outputListing) none).length
      = (listing.filter isPdfEntry).length
        - (listing.filter (fun e => isPdfEntry e
            && decide (stemOf e.name ∈ get_skip_files outputListing))).length := by
  have hlen := enumEntry_length (get_skip_files outputListing) listing h
  have henum : (enumerate_files true src listing (get_skip_files outputListing) none).length
      = (listing.filterMap (enumEntry (get_skip_files outputListing))).length := by
    show ((List.insertionSort _ (listing.filterMap (enumEntry _))).map Prod.fst).length = _
    rw [List.length_map, List.length_insertionSort]
  omega

/-- C5 (witness): with two eligible PDFs of which one already has its
stem in the output directory, exactly one job is enumerated. -/
theorem C5_resume_skip_witness :
    (enumerate_files true "src" [⟨"a.pdf", some 1⟩, ⟨"b.pdf", some 2⟩]
        (get_skip_files ["a.json"]) none).length
      = ([(⟨"a.pdf", some 1⟩ : FileEntry), ⟨"b.pdf", some 2⟩].filter isPdfEntry).length
        - ([(⟨"a.pdf", some 1⟩ : FileEntry), ⟨"b.pdf", some 2⟩].filter
            (fun e => isPdfEntry e
              && decide (stemOf e.name ∈ get_skip_files ["a.json"]))).length :=
  C5_resume_skip "src" _ _ (by decide)

/-- C6 (amended): the pdfplucker entry point routes a source path that is
itself a file to a direct process_pdf call and returns its bare boolean
outcome, not a RunMetrics value; only the internal fallback of
process_batch treats a non-directory source ending in .pdf as the sole
job of a batch, whose metrics then report total_docs = 1. -/
theorem C6_single_file_amended (so : Bool) (env : BatchEnv) (w t : ℕ)
    (name : String) (listing : List FileEntry) (outL : List String)
    (amount : Option ℤ) (szb : String → ℚ) (bh : String → JobBehavior)
    (rs : String → ℚ) (skip0 : Option (List String))
    (hpdf : endsWithStr (toLowerStr name) ".pdf" = true) :
    pdfplucker true so env w t name listing outL amount szb bh rs
      = PluckResult.single so ∧
    (process_batch env w t false name listing skip0 outL none szb bh rs).1.total_docs
      = 1 := by
  constructor
  · rfl
  · have hstats :=
      (process_batch_final_stats env w t false name listing skip0 outL none szb bh rs).2.2.2.1
    rw [hstats]
    show (if endsWithStr (toLowerStr name) ".pdf" = true
      then [name] else ([] : List String)).length = 1
    rw [if_pos hpdf]
    rfl

/-- C6 (witness): the concrete single-file call returns the bare boolean
and the batch fallback on the same file name yields total_docs 1. -/
theorem C6_single_file_amended_witness :
    pdfplucker true true cexEnv 4 600 "doc.pdf" [] [] none cexSize cexBehaviorOk cexRss
      = PluckResult.single true ∧
    (process_batch cexEnv 4 600 false "doc.pdf" [] (some []) [] none cexSize
      cexBehaviorOk cexRss).1.total_docs = 1 :=
  C6_single_file_amended true cexEnv 4 600 "doc.pdf" [] [] none cexSize cexBehaviorOk
    cexRss (some []) (by decide)

/-- C6 (counterexample): calling the embedded pdfplucker entry point on a
source path that is a single file yields the single-file boolean result
shape, not a batch RunMetrics value, contradicting the claim that such a
call returns a RunMetrics of the same shape as for a directory source. -/
theorem C6_counterexample :
    (pdfplucker true true cexEnv 4 600 "doc.pdf" [] [] none cexSize cexBehaviorOk
      cexRss).isBatch = false := rfl

/-- C8 (amended): the effective worker count of process_batch is a
function of the requested count, the available memory and the low-memory
flag only (the CPU core count is never consulted there; the CLI check of
the core count only prints a warning and does not change the count): with
less than 8 GB available the count is clamped to max(1, min(requested,
floor(availableGB))); otherwise under low memory a request above 2 is
halved; the result never exceeds the request, is never below 1, a
diagnostic is emitted whenever the count changes, and on a 2 GB host a
request of 16 is downgraded to 2 with a diagnostic. -/
theorem C8_workers_amended (w : ℕ) (env : BatchEnv) (hw : 1 ≤ w) :
    1 ≤ effectiveWorkers w env ∧
    effectiveWorkers w env ≤ w ∧
    (effectiveWorkers w env ≠ w → workerDiagnostic w env = true) ∧
    (env.availableGB = 2 → effectiveWorkers 16 env = 2 ∧ workerDiagnostic 16 env = true) := by
  by_cases h8 : env.availableGB < 8
  · have he : effectiveWorkers w env = max 1 (min w (⌊env.availableGB⌋.toNat)) := by
      rw [effectiveWorkers, if_pos h8]
    have hd : workerDiagnostic w env = true := by
      rw [workerDiagnostic, if_pos h8]
    refine ⟨?_, ?_, fun _ => hd, ?_⟩
    · rw [he]; exact le_max_left 1 _
    · rw [he]
      have hmin := Nat.min_le_left w (⌊env.availableGB⌋.toNat)
      omega
    · intro hgb
      refine ⟨?_, by rw [workerDiagnostic, if_pos h8]⟩
      rw [effectiveWorkers, if_pos h8, hgb]
      decide
  · by_cases hlm : low_memory_mode env = true ∧ w > 2
    · have he : effectiveWorkers w env = max 1 (w / 2) := by
        rw [effectiveWorkers, if_neg h8, if_pos hlm]
      have hd : workerDiagnostic w env = true := by
        rw [workerDiagnostic, if_neg h8, if_pos hlm]
      refine ⟨?_, ?_, fun _ => hd, ?_⟩
      · rw [he]; exact le_max_left 1 _
      · rw [he]
        have hds := Nat.div_le_self w 2
        omega
      · intro hgb
        exact absurd (hgb ▸ (by norm_num : (2 : ℚ) < 8)) h8
    · have he : effectiveWorkers w env = w := by
        rw [effectiveWorkers, if_neg h8, if_neg hlm]
      refine ⟨by rw [he]; exact hw, he.le, fun hne => absurd he hne, ?_⟩
      intro hgb
      exact absurd (hgb ▸ (by norm_num : (2 : ℚ) < 8)) h8

/-- C8 (witness): on the 2 GB host a request of 16 workers is effective
as 2, within [1, 16], and the downgrade diagnostic fires. -/
theorem C8_workers_amended_witness :
    1 ≤ effectiveWorkers 16 cexEnv2 ∧ effectiveWorkers 16 cexEnv2 ≤ 16 ∧
    effectiveWorkers 16 cexEnv2 = 2 ∧ workerDiagnostic 16 cexEnv2 = true := by
  have h := C8_workers_amended 16 cexEnv2 (by decide)
  have h2 := h.2.2.2 rfl
  exact ⟨h.1, h.2.1, h2.1, h2.2⟩

/-- C8 (counterexample): with 32 GB available, no memory pressure and 16
requested workers, the code dispatches with 16 workers, while the claimed
formula min(requestedWorkers, availableMemoryBudget, cpuBudget) evaluates
to 2 on a host whose CPU budget is 2 cores, so the claimed equality fails
there: the code never consults a CPU budget. -/
theorem C8_counterexample :
    effectiveWorkers 16 cexEnvBig = 16 ∧
    specEffectiveWorkers 16 32 2 = 2 ∧
    ¬ effectiveWorkers 16 cexEnvBig = specEffectiveWorkers 16 32 2 := by
  decide

/-- C9 (amended): a second create_converter call with the same raw
configuration tuple returns the instance produced by the first call and
leaves the cache unchanged, whatever memory pressure either call samples:
the cache key is built from the raw arguments before any low-memory
downgrade, the downgrades are the deterministic function buildConverter
of the arguments and the pressure sampled at construction time, and the
cache is never invalidated by a configuration or pressure change. -/
theorem C9_cache_reuse_amended (cache : List (String × Converter))
    (envLow1 envLow2 : Bool) (p1 p2 : ℚ) (device : String) (n : ℕ)
    (lang : List String) (ocr : Bool) :
    create_converter (create_converter cache envLow1 p1 device n lang ocr).2 envLow2 p2
        device n lang ocr
      = ((create_converter cache envLow1 p1 device n lang ocr).1,
         (create_converter cache envLow1 p1 device n lang ocr).2) := by
  rcases hfind : cache.find? (fun kv => kv.1 == cache_key device n lang ocr) with _ | kv
  · have h1 : create_converter cache envLow1 p1 device n lang ocr
        = (buildConverter device n lang ocr (envLow1 || decide (p1 > 70)),
           cache ++ [(cache_key device n lang ocr,
             buildConverter device n lang ocr (envLow1 || decide (p1 > 70)))]) := by
      simp only [create_converter, hfind]
    rw [h1]
    simp only [create_converter]
    rw [List.find?_append, hfind]
    simp
  · have h1 : create_converter cache envLow1 p1 device n lang ocr = (kv.2, cache) := by
      simp only [create_converter, hfind]
    rw [h1]
    simp only [create_converter, hfind]

/-- C9 (counterexample): a first call under memory pressure (80 percent)
builds and caches a converter with the low-memory image scale 0.3; a
second call with the same configuration under normal memory (10 percent)
returns that cached low-memory instance even though a fresh construction
would now use scale 0.5 — the cached handle is not invalidated or rebuilt
when the effective configuration changes. -/
theorem C9_counterexample :
    ((create_converter (create_converter [] false 80 "CPU" 4 ["es", "pt"] false).2
        false 10 "CPU" 4 ["es", "pt"] false).1).images_scale = 3 / 10 ∧
    (buildConverter "CPU" 4 ["es", "pt"] false false).images_scale = 1 / 2 ∧
    ¬ ((create_converter (create_converter [] false 80 "CPU" 4 ["es", "pt"] false).2
        false 10 "CPU" 4 ["es", "pt"] false).1).images_scale
      = (buildConverter "CPU" 4 ["es", "pt"] false false).images_scale := by
  refine ⟨rfl, rfl, ?_⟩
  show ¬ (3 / 10 : ℚ) = 1 / 2
  norm_num

theorem enumEntry_some (skip : List String) (e : FileEntry) (p : String × ℕ)
    (h : enumEntry skip e = some p) :
    p.1 = e.name ∧ ¬ (¬ skip.isEmpty = true ∧ stemOf e.name ∈ skip) := by
  simp only [enumEntry] at h
  by_cases h1 : endsWithStr (toLowerStr e.name) ".pdf" = true
  · rw [if_pos h1] at h
    by_cases h2 : ¬ skip.isEmpty = true ∧ stemOf e.name ∈ skip
    · rw [if_pos h2] at h
      exact absurd h (by simp)
    · rw [if_neg h2] at h
      rcases hs : e.size with _ | sz
      · rw [hs] at h
        exact absurd h (by simp)
      · rw [hs] at h
        simp only [Option.some.injEq] at h
        exact ⟨by rw [← h], h2⟩
  · rw [if_neg h1] at h
    exact absurd h (by simp)

theorem not_mem_enumerate (src x : String) (listing : List FileEntry)
    (skip : List String) (amount : Option ℤ)
    (hne : skip ≠ []) (hx : stemOf x ∈ skip) :
    x ∉ enumerate_files true src listing skip amount := by
  intro hmem
  have hmem2 : x ∈ (List.insertionSort (fun (a b : String × ℕ) => a.2 ≤ b.2)
      (listing.filterMap (enumEntry skip))).map Prod.fst := by
    rcases amount with _ | a
    · exact hmem
    · show x ∈ (List.insertionSort _ _).map Prod.fst
      have hmem3 : x ∈ (if a > 0
          then ((List.insertionSort (fun (a b : String × ℕ) => a.2 ≤ b.2)
            (listing.filterMap (enumEntry skip))).map Prod.fst).take a.toNat
          else (List.insertionSort (fun (a b : String × ℕ) => a.2 ≤ b.2)
            (listing.filterMap (enumEntry skip))).map Prod.fst) := hmem
      by_cases ha : a > 0
      · rw [if_pos ha] at hmem3
        exact List.mem_of_mem_take hmem3
      · rw [if_neg ha] at hmem3
        exact hmem3
  obtain ⟨p, hp, hpx⟩ := List.mem_map.mp hmem2
  have hp2 : p ∈ listing.filterMap (enumEntry skip) :=
    ((List.perm_insertionSort _ _).mem_iff).mp hp
  obtain ⟨e, _, henum⟩ := List.mem_filterMap.mp hp2
  have hsome := enumEntry_some skip e p henum
  have hxe : x = e.name := by rw [← hpx, hsome.1]
  refine hsome.2 ⟨?_, ?_⟩
  · simp [List.isEmpty_iff, hne]
  · rw [← hxe]
    exact hx

/-- C10: the resume skip set is built from the stems of all .json files
of the output directory, and the run itself writes
intermediate_metrics.json and final_metrics.json there; hence on a resume
whose output listing contains those files, the skip set contains the
stems intermediate_metrics and final_metrics, and input PDFs named
intermediate_metrics.pdf or final_metrics.pdf are excluded from the job
enumeration and never processed. -/
theorem C10_metrics_stems_excluded (outputListing : List String) (src : String)
    (listing : List FileEntry) (amount : Option ℤ)
    (h1 : "intermediate_metrics.json" ∈ outputListing)
    (h2 : "final_metrics.json" ∈ outputListing) :
    "intermediate_metrics" ∈ get_skip_files outputListing ∧
    "final_metrics" ∈ get_skip_files outputListing ∧
    "intermediate_metrics.pdf" ∉ enumerate_files true src listing
      (get_skip_files outputListing) amount ∧
    "final_metrics.pdf" ∉ enumerate_files true src listing
      (get_skip_files outputListing) amount := by
  have hm1 : "intermediate_metrics" ∈ get_skip_files outputListing := by
    rw [get_skip_files]
    exact List.mem_map.mpr ⟨"intermediate_metrics.json",
      List.mem_filter.mpr ⟨h1, by decide⟩, by decide⟩
  have hm2 : "final_metrics" ∈ get_skip_files outputListing := by
    rw [get_skip_files]
    exact List.mem_map.mpr ⟨"final_metrics.json",
      List.mem_filter.mpr ⟨h2, by decide⟩, by decide⟩
  have hne : get_skip_files outputListing ≠ [] := List.ne_nil_of_mem hm1
  refine ⟨hm1, hm2, ?_, ?_⟩
  · refine not_mem_enumerate src _ listing _ amount hne ?_
    rw [show stemOf "intermediate_metrics.pdf" = "intermediate_metrics" from by decide]
    exact hm1
  · refine not_mem_enumerate src _ listing _ amount hne ?_
    rw [show stemOf "final_metrics.pdf" = "final_metrics" from by decide]
    exact hm2

/-- C10 (witness): with a previous run's metrics files in the output
directory, both stems are in the skip set and a PDF named after them is
not enumerated. -/
theorem C10_metrics_stems_excluded_witness :
    "intermediate_metrics" ∈ get_skip_files
      ["intermediate_metrics.json", "final_metrics.json"] ∧
    "final_metrics" ∈ get_skip_files
      ["intermediate_metrics.json", "final_metrics.json"] ∧
    "intermediate_metrics.pdf" ∉ enumerate_files true "src"
      [⟨"intermediate_metrics.pdf", some 1⟩, ⟨"doc.pdf", some 2⟩]
      (get_skip_files ["intermediate_metrics.json", "final_metrics.json"]) none ∧
    "final_metrics.pdf" ∉ enumerate_files true "src"
      [⟨"intermediate_metrics.pdf", some 1⟩, ⟨"doc.pdf", some 2⟩]
      (get_skip_files ["intermediate_metrics.json", "final_metrics.json"]) none :=
  C10_metrics_stems_excluded ["intermediate_metrics.json", "final_metrics.json"]
    "src" [⟨"intermediate_metrics.pdf", some 1⟩, ⟨"doc.pdf", some 2⟩] none
    (by decide) (by decide)

end Pdfplucker
